import Mathlib

/-!
Verification of the protocol-client core of the `geminiexpoapp` repository:
the Base64 binary codec (`src/lib/utils.ts` together with the `base-64`
library it delegates to), the connection state machine and inbound message
dispatcher (`src/lib/multimodal-live-client.ts`), and the audio playback
queue scheduler (`src/hooks/useLiveAPI.ts`).

Each TypeScript function of the core is shallowly embedded as an executable
Lean definition; mutable fields of the client object become fields of an
explicit state record, asynchronous callbacks become explicit events
interpreted by a step function, and thrown exceptions become `Option`.
-/

namespace GeminiLive

/-! ## Binary codec

`arrayBufferToBase64` / `base64ToArrayBuffer` from `src/lib/utils.ts`.
The two functions convert a byte buffer to a binary string and delegate to
`encode` / `decode` of the `base-64` npm library, which implement standard
RFC 4648 Base64 over strings of char codes 0..255.  We embed bytes as `Nat`
(values < 256 in every reachable use: the source reads them from a
`Uint8Array`), the encoded text as `String`, and a decode exception as
`none`. -/

/-- The 64-character alphabet `TABLE` of the `base-64` library. -/
def b64Table : List Char :=
  ['A', 'B', 'C', 'D', 'E', 'F', 'G', 'H', 'I', 'J', 'K', 'L', 'M',
   'N', 'O', 'P', 'Q', 'R', 'S', 'T', 'U', 'V', 'W', 'X', 'Y', 'Z',
   'a', 'b', 'c', 'd', 'e', 'f', 'g', 'h', 'i', 'j', 'k', 'l', 'm',
   'n', 'o', 'p', 'q', 'r', 's', 't', 'u', 'v', 'w', 'x', 'y', 'z',
   '0', '1', '2', '3', '4', '5', '6', '7', '8', '9', '+', '/']

/-- `TABLE.charAt(s)` for a sextet `s < 64`. -/
def b64chr (s : Nat) : Char := b64Table.getD s 'A'

/-- `TABLE.indexOf(c)`; `none` models the library's error on a character
outside the alphabet. -/
def b64index (c : Char) : Option Nat := b64Table.findIdx? (fun x => x == c)

/-- The encoding loop of `base-64`'s `encode`: three input bytes are packed
into a 24-bit buffer and emitted as four sextet characters; a trailing group
of two or one bytes is emitted with `=` padding, exactly as in the library's
post-loop `padding == 2` / `padding == 1` branches. -/
def b64encodeBytes : List Nat → List Char
  | a :: b :: c :: rest =>
    let buffer := a * 65536 + b * 256 + c
    b64chr (buffer / 262144 % 64) :: b64chr (buffer / 4096 % 64) ::
      b64chr (buffer / 64 % 64) :: b64chr (buffer % 64) :: b64encodeBytes rest
  | [a, b] =>
    let buffer := a * 256 + b
    [b64chr (buffer / 1024), b64chr (buffer / 16 % 64),
     b64chr (buffer * 4 % 64), '=']
  | [a] => [b64chr (a / 4), b64chr (a * 16 % 64), '=', '=']
  | [] => []

/-- The library's `input.replace(/==?$/, '')`: strip one `==` or `=` group
from the end of the string. -/
def dropTrailingPad (cs : List Char) : List Char :=
  if cs.reverse.take 2 = ['=', '='] then (cs.reverse.drop 2).reverse
  else if cs.reverse.take 1 = ['='] then (cs.reverse.drop 1).reverse
  else cs

/-- The decoding loop of `base-64`'s `decode` on a pad-stripped input,
restated group-wise: every four sextets yield three bytes, a trailing group
of three sextets yields two bytes, of two sextets one byte, and a trailing
single character is the library's length-`% 4 == 1` error. An alphabet
lookup failure is also an error. -/
def b64decodeGroups : List Char → Option (List Nat)
  | c1 :: c2 :: c3 :: c4 :: rest => do
    let s1 ← b64index c1
    let s2 ← b64index c2
    let s3 ← b64index c3
    let s4 ← b64index c4
    let tail ← b64decodeGroups rest
    pure ((s1 * 4 + s2 / 16) :: (s2 % 16 * 16 + s3 / 4) :: (s3 % 4 * 64 + s4) :: tail)
  | [c1, c2, c3] => do
    let s1 ← b64index c1
    let s2 ← b64index c2
    let s3 ← b64index c3
    pure [s1 * 4 + s2 / 16, s2 % 16 * 16 + s3 / 4]
  | [c1, c2] => do
    let s1 ← b64index c1
    let s2 ← b64index c2
    pure [s1 * 4 + s2 / 16]
  | [_] => none
  | [] => some []

/-- `base-64`'s `decode`: strip trailing padding when the length is a
multiple of four, reject a residual length of one, then run the decoding
loop. -/
def b64decodeChars (cs : List Char) : Option (List Nat) :=
  let stripped := if cs.length % 4 = 0 then dropTrailingPad cs else cs
  if stripped.length % 4 = 1 then none else b64decodeGroups stripped

/-- `arrayBufferToBase64` (src/lib/utils.ts): the byte-by-byte
`String.fromCharCode` loop builds the binary string that `encode` consumes,
so the composite maps the byte list through the Base64 encoder. -/
def arrayBufferToBase64 (buffer : List Nat) : String :=
  String.mk (b64encodeBytes buffer)

/-- `base64ToArrayBuffer` (src/lib/utils.ts): `decode` the string, then read
the bytes back out with `charCodeAt`; a `decode` exception propagates
(`none`). -/
def base64ToArrayBuffer (base64 : String) : Option (List Nat) :=
  b64decodeChars base64.data

/-! ## Data model of the client

`MultimodalLiveClient` (src/lib/multimodal-live-client.ts).  Its mutable
fields `ws`, `config`, `connectionAttempt`, `closingInitiated` become a
state record.  WebSocket objects and connection-attempt promises are
identified by numeric ids; the ready state of a socket id is supplied by an
environment function.  Everything the client emits — outbound frames,
events to subscribers (including `log` events), promise settlement — is
recorded in an ordered action trace. -/

/-- `Modelled from the spec:` the repository's `multimodal-live-types.ts`
module is not among the provided sources; per spec §6 a `LiveConfig`
minimally contains a model identifier string and optionally a
generation-options structure, which we leave abstract. -/
structure LiveConfig where
  model : String
  generationConfig : Option String := none
deriving DecidableEq, Repr

/-- `Modelled from the spec:` a content part (spec §3): exactly one of
text, inline binary data with a MIME type, function call, function
response, executable code, code-execution result.  Optional fields model
JS-absent fields; for the object-valued payloads only presence matters to
the core. -/
structure ContentPart where
  text : Option String := none
  inlineMimeType : Option String := none
  inlineData : Option String := none
  functionCall : Bool := false
  functionResponse : Bool := false
  executableCode : Bool := false
  codeExecutionResult : Bool := false
deriving DecidableEq, Repr

/-- `Modelled from the spec:` a `ServerContent` envelope body (spec §3):
zero-or-more of a model-turn with ordered parts, a turn-complete marker,
an interrupted marker. -/
structure ServerContent where
  modelTurn : Option (List ContentPart) := none
  turnComplete : Bool := false
  interrupted : Bool := false
deriving DecidableEq, Repr

/-- `Modelled from the spec:` the inbound envelope variants (spec §3/§6),
tagged by exactly one top-level key; the classifier predicates
(`isServerContentMessage` …) become constructor discrimination. -/
inductive LiveIncomingMessage
  | serverContent (sc : ServerContent)
  | toolCall (ids : List String)
  | toolCallCancellation (ids : List String)
  | setupComplete
  | unhandled (tag : String)
deriving DecidableEq, Repr

/-- Outbound frames written to the socket by `_sendDirect`. -/
inductive Frame
  | setup (config : LiveConfig)
  | clientContent (parts : List ContentPart) (turnComplete : Bool)
  | realtimeInput (count : Nat)
  | toolResponse
deriving DecidableEq, Repr

/-- Events emitted to subscribers of the `EventEmitter`. -/
inductive ClientEvent
  | connecting
  | openEv
  | closeEv (code : Nat) (reason : String)
  | errorEv
  | logEv (tag : String)
  | audioEv (data : List Nat)
  | contentEv (sc : ServerContent)
  | interruptedEv
  | turncompleteEv
  | setupcompleteEv
  | toolcallEv (ids : List String)
  | toolcallcancellationEv (ids : List String)
deriving DecidableEq, Repr

/-- One observable action of the client, in program order. -/
inductive Action
  | sendFrame (f : Frame)
  | emitEv (e : ClientEvent)
  | resolveAttempt (pid : Nat) (value : Bool)
  | rejectAttempt (pid : Nat)
deriving DecidableEq, Repr

/-- The readiness constants of the WebSocket API. -/
inductive WSReadyState
  | CONNECTING
  | OPEN
  | CLOSING
  | CLOSED
deriving DecidableEq, Repr

/-- The mutable fields of `MultimodalLiveClient`. -/
structure ClientState where
  ws : Option Nat := none
  config : Option LiveConfig := none
  connectionAttempt : Option Nat := none
  closingInitiated : Bool := false
deriving DecidableEq, Repr

/-- The field values installed by the constructor. -/
def initialClientState : ClientState := {}

/-! ## Connection state machine operations -/

/-- What a `connect()` caller gets back: the already-outstanding attempt
promise (coalescing), an immediately-resolved `true` (already open), or a
freshly created attempt promise. -/
inductive ConnectReturn
  | existingAttempt (pid : Nat)
  | alreadyOpenTrue
  | newAttempt (pid : Nat)
deriving DecidableEq, Repr

/-- Result of one `connect(config)` call: the state after the synchronous
part of the call, what the caller received, whether a `new WebSocket` was
constructed, and the actions performed. -/
structure ConnectStep where
  state : ClientState
  ret : ConnectReturn
  wsCreated : Bool
  actions : List Action
deriving DecidableEq, Repr

/-- `connect(config)` (multimodal-live-client.ts:95-184), synchronous part.
If `connectionAttempt` is non-null the very same promise is returned and
nothing else happens; if the socket is already OPEN a resolved `true` is
returned; otherwise the config is installed, `closingInitiated` reset, a
`client.connect` log and the `connecting` event emitted, a `new WebSocket`
constructed with temporary listeners, and a fresh attempt promise stored
and returned.  `env` gives each socket id's `readyState`; `freshPid` is the
identity of the promise a fresh attempt would allocate. -/
def connect (env : Nat → WSReadyState) (s : ClientState) (config : LiveConfig)
    (freshPid : Nat) : ConnectStep :=
  match s.connectionAttempt with
  | some pid => ⟨s, .existingAttempt pid, false, []⟩
  | none =>
    match s.ws with
    | some w =>
      if env w = .OPEN then ⟨s, .alreadyOpenTrue, false, []⟩
      else
        ⟨{ s with config := some config, closingInitiated := false,
                  connectionAttempt := some freshPid },
         .newAttempt freshPid, true,
         [.emitEv (.logEv "client.connect"), .emitEv .connecting]⟩
    | none =>
      ⟨{ s with config := some config, closingInitiated := false,
                connectionAttempt := some freshPid },
       .newAttempt freshPid, true,
       [.emitEv (.logEv "client.connect"), .emitEv .connecting]⟩

/-- `_sendDirect(request)` (multimodal-live-client.ts:426-441): check the
socket is present and OPEN, else log and emit an error; serialize and
write the frame (serialization of the fixed frame shapes cannot throw). -/
def sendDirect (env : Nat → WSReadyState) (s : ClientState) (f : Frame) :
    List Action :=
  match s.ws with
  | some w =>
    if env w = .OPEN then [.sendFrame f]
    else [.emitEv (.logEv "error.send"), .emitEv .errorEv]
  | none => [.emitEv (.logEv "error.send"), .emitEv .errorEv]

/-- `cleanupAndReject(error)` (multimodal-live-client.ts:158-168): remove
the temporary listeners, null the transport handle, clear the attempt
handle, reject the attempt promise unless closing was already initiated,
then set `closingInitiated`. -/
def cleanupAndReject (s : ClientState) (pid : Nat) : ClientState × List Action :=
  ({ s with ws := none, connectionAttempt := none, closingInitiated := true },
   if s.closingInitiated then [] else [.rejectAttempt pid])

/-- The `onOpen` handler of the in-flight attempt
(multimodal-live-client.ts:115-141): on a null config reject; otherwise
log, install the transport handle, swap listeners, send the `{ setup }`
frame via `_sendDirect`, log it, emit `open`, clear the attempt handle and
resolve the attempt with `true`.  `env` must report the freshly opened
socket `wsId` as OPEN. -/
def onOpen (env : Nat → WSReadyState) (s : ClientState) (wsId pid : Nat) :
    ClientState × List Action :=
  match s.config with
  | none =>
    let (s2, acts) := cleanupAndReject s pid
    (s2, .emitEv (.logEv "client.error") :: acts)
  | some cfg =>
    let s2 : ClientState := { s with ws := some wsId }
    let sendActs := sendDirect env s2 (.setup cfg)
    ({ s2 with connectionAttempt := none },
     [Action.emitEv (.logEv "client.open")] ++ sendActs ++
       [.emitEv (.logEv "client.send"), .emitEv .openEv, .resolveAttempt pid true])

/-- The `onError` handler of the in-flight attempt
(multimodal-live-client.ts:143-149): emit `error`, then clean up and
reject. -/
def onErrorDuringConnect (s : ClientState) (pid : Nat) :
    ClientState × List Action :=
  let (s2, acts) := cleanupAndReject s pid
  (s2, .emitEv .errorEv :: acts)

/-- The `onCloseEarly` handler of the in-flight attempt
(multimodal-live-client.ts:151-156): emit `error`, then clean up and
reject. -/
def onCloseEarly (s : ClientState) (pid : Nat) : ClientState × List Action :=
  let (s2, acts) := cleanupAndReject s pid
  (s2, .emitEv .errorEv :: acts)

/-- `disconnect()` (multimodal-live-client.ts:186-232).  A second call
after closing was initiated returns immediately.  With a transport held:
log, set `closingInitiated`, detach the persistent listeners, request a
normal closure (code 1000) when the socket is OPEN or CONNECTING, null the
handle, and — when the socket's `readyState` was not already CLOSED —
synthesize a `close {1000}` notification on the next tick.  In every
non-early-return path the pending attempt handle is cleared. -/
def disconnect (env : Nat → WSReadyState) (s : ClientState) :
    ClientState × List Action :=
  if s.closingInitiated then (s, [])
  else
    match s.ws with
    | some w =>
      let wasConnected := env w ≠ .CLOSED
      ({ s with closingInitiated := true, ws := none, connectionAttempt := none },
       [Action.emitEv (.logEv "client.disconnect")] ++
         (if wasConnected then
            [Action.emitEv (.closeEv 1000 "Client requested disconnect")]
          else []))
    | none =>
      ({ s with connectionAttempt := none },
       [.emitEv (.logEv "client.disconnect")])

/-- The persistent `handleClose` listener
(multimodal-live-client.ts:284-300): if closing was initiated by us the
event is suppressed entirely; otherwise log, null the transport handle,
clear the attempt handle, mark closed and surface the `close` event. -/
def handleClose (s : ClientState) (code : Nat) (reason : String) :
    ClientState × List Action :=
  if s.closingInitiated then (s, [])
  else
    ({ s with ws := none, connectionAttempt := none, closingInitiated := true },
     [.emitEv (.logEv "server.close"), .emitEv (.closeEv code reason)])

/-- The persistent `handleError` listener
(multimodal-live-client.ts:302-314): if closing was initiated the event is
ignored; otherwise log and emit `error`.  The transport handle and the
attempt handle are left untouched (the nulling is commented out in the
source). -/
def handleError (s : ClientState) : ClientState × List Action :=
  if s.closingInitiated then (s, [])
  else (s, [.emitEv (.logEv "server.error"), .emitEv .errorEv])

/-- JS truthiness of the payload fields tested by `send`'s filter
(multimodal-live-client.ts:411): a present but empty text string is falsy,
object-valued fields are truthy iff present. -/
def isTruthyPart (p : ContentPart) : Bool :=
  (match p.text with | some t => t ≠ "" | none => false) ||
    p.inlineData.isSome || p.functionCall || p.functionResponse ||
    p.executableCode || p.codeExecutionResult

/-- `send(parts, turnComplete)` (multimodal-live-client.ts:404-424): warn
and return when not open; filter out parts with no truthy payload field;
if none remain, warn and return without transmitting; otherwise wrap the
surviving parts in a single `user` turn and transmit one frame. -/
def send (env : Nat → WSReadyState) (s : ClientState) (parts : List ContentPart)
    (turnComplete : Bool) : List Action :=
  match s.ws with
  | some w =>
    if env w = .OPEN then
      let validParts := parts.filter isTruthyPart
      if validParts.isEmpty then [.emitEv (.logEv "warn.send")]
      else
        sendDirect env s (.clientContent validParts turnComplete) ++
          [.emitEv (.logEv "client.send.content")]
    else [.emitEv (.logEv "warn.send")]
  | none => [.emitEv (.logEv "warn.send")]

/-- A sequence of further `connect` calls, each seeing the state left by
the previous one; returns the final state, the per-caller results, and how
many WebSocket instances were constructed. -/
def connectSeq (env : Nat → WSReadyState) (s : ClientState) :
    List (LiveConfig × Nat) → ClientState × List ConnectReturn × Nat
  | [] => (s, [], 0)
  | (cfg, pid) :: rest =>
    let step := connect env s cfg pid
    let (sEnd, rets, n) := connectSeq env step.state rest
    (sEnd, step.ret :: rets, (if step.wsCreated then 1 else 0) + n)

/-- The full action trace of one successful connection from an idle
client: the synchronous part of `connect` followed by the attempt's
`onOpen` handler. -/
def successfulConnectTrace (env : Nat → WSReadyState) (s : ClientState)
    (config : LiveConfig) (wsId pid : Nat) : List Action :=
  let step := connect env s config pid
  step.actions ++ (onOpen env step.state wsId pid).2

/-- The frames transmitted within an action trace, in order. -/
def sentFrames (acts : List Action) : List Frame :=
  acts.filterMap fun a => match a with | .sendFrame f => some f | _ => none

/-- Does an action transmit some frame? -/
def isSendAction : Action → Bool
  | .sendFrame _ => true
  | _ => false

/-- Does an action emit the `open` event? -/
def isOpenEmit : Action → Bool
  | .emitEv .openEv => true
  | _ => false

/-- The `(code, reason)` pairs of `close` notifications in a trace. -/
def closeEmits (acts : List Action) : List (Nat × String) :=
  acts.filterMap fun a =>
    match a with | .emitEv (.closeEv c r) => some (c, r) | _ => none

/-! ## Inbound message dispatcher -/

/-- `Modelled from the spec:` the `isInterrupted` classifier of the absent
`multimodal-live-types.ts` — does the envelope carry the interrupted
marker (spec §3)? -/
def isInterrupted (sc : ServerContent) : Bool := sc.interrupted

/-- `Modelled from the spec:` the `isTurnComplete` classifier — does the
envelope carry the turn-complete marker (spec §3)? -/
def isTurnComplete (sc : ServerContent) : Bool := sc.turnComplete

/-- `Modelled from the spec:` the `isModelTurn` classifier — does the
envelope carry a model turn (spec §3)? -/
def isModelTurn (sc : ServerContent) : Bool := sc.modelTurn.isSome

/-- `p.inlineData?.mimeType.startsWith('audio/')` — the audio-part filter
of `processModelTurn` (multimodal-live-client.ts:358-360). -/
def isAudioPart (p : ContentPart) : Bool :=
  match p.inlineMimeType with
  | some m => List.isPrefixOf "audio/".data m.data
  | none => false

/-- The body of the `audioParts.forEach` loop of `processModelTurn`
(multimodal-live-client.ts:366-379): the guard
`if (part.inlineData?.data)` is JS truthiness, so a part whose data is
absent *or the empty string* is skipped silently; otherwise Base64-decode
the data and emit an `audio` event with the bytes plus a log, and when
decoding throws, the catch block logs `error.audio` and emits an `error`
event. -/
def emitAudioPart (p : ContentPart) : List Action :=
  match p.inlineData with
  | some d =>
    if d = "" then []
    else
      match base64ToArrayBuffer d with
      | some bytes => [.emitEv (.audioEv bytes), .emitEv (.logEv "server.audio")]
      | none => [.emitEv (.logEv "error.audio"), .emitEv .errorEv]
  | none => []

/-- `processModelTurn` (multimodal-live-client.ts:354-380): select the
parts whose inline MIME type is `audio/*` and run the loop body over them
in order; a failing part never aborts the loop. -/
def processModelTurn (parts : List ContentPart) : List Action :=
  (parts.filter isAudioPart).flatMap emitAudioPart

/-- `processIncomingMessage` (multimodal-live-client.ts:317-352): log the
envelope; for `serverContent` emit the raw `content` event first, then the
`interrupted` and `turncomplete` signals in that order, then process the
model turn; for the other recognized variants emit their event; for an
unrecognized envelope emit only an `unhandled` log. -/
def processIncomingMessage (response : LiveIncomingMessage) : List Action :=
  Action.emitEv (.logEv "server.receive") ::
    match response with
    | .serverContent sc =>
      [Action.emitEv (.contentEv sc)] ++
        (if isInterrupted sc then
          [Action.emitEv (.logEv "server.interrupted"), Action.emitEv .interruptedEv]
         else []) ++
        (if isTurnComplete sc then
          [Action.emitEv (.logEv "server.turnComplete"), Action.emitEv .turncompleteEv]
         else []) ++
        (match sc.modelTurn with
         | some parts => processModelTurn parts
         | none => [])
    | .toolCall ids =>
      [.emitEv (.logEv "server.toolCall"), .emitEv (.toolcallEv ids)]
    | .toolCallCancellation ids =>
      [.emitEv (.logEv "server.toolCallCancellation"),
       .emitEv (.toolcallcancellationEv ids)]
    | .setupComplete =>
      [.emitEv (.logEv "server.setupComplete"), .emitEv .setupcompleteEv]
    | .unhandled _ => [.emitEv (.logEv "warn.receive")]

/-- Does an action emit the `content` event? -/
def isContentEmit : Action → Bool
  | .emitEv (.contentEv _) => true
  | _ => false

/-- Does an action emit the `turncomplete` event? -/
def isTurncompleteEmit : Action → Bool
  | .emitEv .turncompleteEv => true
  | _ => false

/-- Does an action emit an `audio` event? -/
def isAudioEmit : Action → Bool
  | .emitEv (.audioEv _) => true
  | _ => false

/-- Does an action emit an `error` event? -/
def isErrorEmit : Action → Bool
  | .emitEv .errorEv => true
  | _ => false

/-! ## Audio playback queue scheduler

`handleAudioChunk` / `playNextInQueue` / `cleanupPlayback`
(src/hooks/useLiveAPI.ts).  The hook's ref cells
(`playbackQueueRef`, `cleanupQueueRef`, `isPlayingAudioRef`,
`audioSoundRef`) become state fields.  Chunks and their transient file
URIs are identified by the numeric order of arrival (the source builds a
unique `chunk_<time>_<random>` name per chunk).  The asynchronous
interleaving of the source — a chunk is pushed to the queues only in the
continuation that runs after its `writeAsStringAsync` resolves, and
playback completion / failure callbacks run later still — is expressed as
a schedule of `SchedEvent`s consumed by a step function.  Ghost fields
(`created`, `enqueueTrace`, `playTrace`, `effDeletes`, `deleteCalls`)
record history for the theorems and are never read by the step function's
control flow. -/

structure SchedState where
  /-- chunk ids whose transient-file write is still in flight. -/
  pendingWrites : List Nat := []
  /-- `playbackQueueRef.current` (ids stand for `{uri, id}` records). -/
  playbackQueue : List Nat := []
  /-- `cleanupQueueRef.current` — URIs pending deletion. -/
  cleanupQueue : List Nat := []
  /-- `isPlayingAudioRef.current`. -/
  isPlayingAudio : Bool := false
  /-- `audioSoundRef.current` — the loaded sound's chunk id. -/
  activeSound : Option Nat := none
  /-- transient files currently existing in the cache directory. -/
  files : List Nat := []
  /-- ghost: ids of every transient file successfully written. -/
  created : List Nat := []
  /-- ghost: ids in the order their queue push happened. -/
  enqueueTrace : List Nat := []
  /-- ghost: ids in the order their playback began. -/
  playTrace : List Nat := []
  /-- ghost: ids at each deletion that actually removed a file. -/
  effDeletes : List Nat := []
  /-- ghost: every `FileSystem.deleteAsync` call as (uri, idempotent flag). -/
  deleteCalls : List (Nat × Bool) := []
  /-- next fresh chunk id. -/
  nextId : Nat := 0
deriving DecidableEq, Repr

/-- A `FileSystem.deleteAsync(uri, { idempotent: true })` call, as issued
by every deletion site of the hook: removes the file when it exists and
silently succeeds when it does not. -/
def deleteCallIdem (s : SchedState) (u : Nat) : SchedState :=
  if u ∈ s.files then
    { s with deleteCalls := s.deleteCalls ++ [(u, true)],
             files := s.files.erase u, effDeletes := s.effDeletes ++ [u] }
  else { s with deleteCalls := s.deleteCalls ++ [(u, true)] }

/-- `playNextInQueue` (useLiveAPI.ts:126-221), up to the point playback of
the dequeued item is under way: return when already playing or the queue
is empty; otherwise shift the head item, mark playing, and begin loading
it (`Audio.Sound.createAsync` with `shouldPlay: true`). -/
def playNextInQueue (s : SchedState) : SchedState :=
  if s.isPlayingAudio then s
  else
    match s.playbackQueue with
    | [] => s
    | item :: rest =>
      { s with playbackQueue := rest, isPlayingAudio := true,
               activeSound := some item, playTrace := s.playTrace ++ [item] }

/-- `cleanupPlayback` (useLiveAPI.ts:77-106): stop marking an item active,
empty the playback queue, stop and unload the in-flight sound, then delete
every URI in the cleanup list (each deletion independently idempotent and
caught), clearing the list first. -/
def cleanupPlayback (s : SchedState) : SchedState :=
  let s1 := { s with isPlayingAudio := false, playbackQueue := [],
                     activeSound := none }
  let filesToDelete := s1.cleanupQueue
  let s2 := { s1 with cleanupQueue := [] }
  filesToDelete.foldl deleteCallIdem s2

/-- The scheduler-relevant asynchronous completions, in the order the
event loop delivers them. -/
inductive SchedEvent
  /-- a non-empty `audio` event arrives: `handleAudioChunk` runs up to its
  `writeAsStringAsync` suspension (useLiveAPI.ts:224-239). -/
  | arrive
  /-- chunk `id`'s transient write resolves: the rest of
  `handleAudioChunk` runs — push to the playback queue and the cleanup
  list, and start playback when idle (useLiveAPI.ts:241-245). -/
  | writeDone (id : Nat)
  /-- chunk `id`'s transient write rejects: the catch block deletes the
  (possibly incomplete) file idempotently and the chunk is never queued
  (useLiveAPI.ts:247-251). -/
  | writeFail (id : Nat)
  /-- the active sound reports `didJustFinish`: unload, remove its URI
  from the cleanup list, delete its file, release the active slot and
  drain the queue again (useLiveAPI.ts:188-207). -/
  | finishPlay
  /-- `didJustFinish` but `unloadAsync` rejected: the catch block deletes
  the file *without* removing it from the cleanup list, then drains
  (useLiveAPI.ts:197-207). -/
  | finishPlayUnloadFail
  /-- the active item fails to load or play: delete its file (without
  touching the cleanup list), release the active slot, drain
  (useLiveAPI.ts:166-175 and 213-220). -/
  | errorPlay
  /-- `cleanupPlayback` runs (connection close, interruption signal, or
  component teardown). -/
  | cleanup
deriving DecidableEq, Repr

/-- One event-loop step of the playback scheduler. -/
def schedStep (s : SchedState) : SchedEvent → SchedState
  | .arrive =>
    { s with pendingWrites := s.pendingWrites ++ [s.nextId],
             nextId := s.nextId + 1 }
  | .writeDone id =>
    if id ∈ s.pendingWrites then
      let s2 := { s with
        pendingWrites := s.pendingWrites.filter (· ≠ id),
        files := s.files ++ [id],
        created := s.created ++ [id],
        playbackQueue := s.playbackQueue ++ [id],
        cleanupQueue := s.cleanupQueue ++ [id],
        enqueueTrace := s.enqueueTrace ++ [id] }
      if s2.isPlayingAudio then s2 else playNextInQueue s2
    else s
  | .writeFail id =>
    if id ∈ s.pendingWrites then
      deleteCallIdem { s with pendingWrites := s.pendingWrites.filter (· ≠ id) } id
    else s
  | .finishPlay =>
    match s.activeSound with
    | some item =>
      let s1 := { s with cleanupQueue := s.cleanupQueue.filter (· ≠ item) }
      let s2 := deleteCallIdem s1 item
      playNextInQueue { s2 with activeSound := none, isPlayingAudio := false }
    | none => s
  | .finishPlayUnloadFail =>
    match s.activeSound with
    | some item =>
      let s2 := deleteCallIdem s item
      playNextInQueue { s2 with activeSound := none, isPlayingAudio := false }
    | none => s
  | .errorPlay =>
    match s.activeSound with
    | some item =>
      let s2 := deleteCallIdem s item
      playNextInQueue { s2 with activeSound := none, isPlayingAudio := false }
    | none => s
  | .cleanup => cleanupPlayback s

/-- Run the scheduler from the initial (empty) state over a schedule. -/
def schedRun (evs : List SchedEvent) : SchedState :=
  evs.foldl schedStep {}

/-- The reachable-state invariant of the playback scheduler: ids are fresh
and unique, every existing transient file is still listed for cleanup,
the ghost counters are consistent (a written file either still exists and
was never effectively deleted, or is gone and was effectively deleted
exactly once), every issued delete call was idempotent, and the chunks
that began playing followed by the chunks still queued form a
subsequence of the enqueue order. -/
structure SchedInv (s : SchedState) : Prop where
  filesNodup : s.files.Nodup
  files_sub_cleanup : ∀ u ∈ s.files, u ∈ s.cleanupQueue
  files_sub_created : ∀ u ∈ s.files, u ∈ s.created
  cleanup_sub_created : ∀ u ∈ s.cleanupQueue, u ∈ s.created
  pending_not_created : ∀ u ∈ s.pendingWrites, u ∉ s.created
  status : ∀ u ∈ s.created,
    (u ∈ s.files ∧ s.effDeletes.count u = 0) ∨
      (u ∉ s.files ∧ s.effDeletes.count u = 1)
  eff_created : ∀ u, u ∉ s.created → s.effDeletes.count u = 0
  created_lt : ∀ u ∈ s.created, u < s.nextId
  pending_lt : ∀ u ∈ s.pendingWrites, u < s.nextId
  callsIdem : ∀ c ∈ s.deleteCalls, c.2 = true
  playOrder : (s.playTrace ++ s.playbackQueue).Sublist s.enqueueTrace

/-! ## Codec lemmas -/

/-- Looking a table character back up recovers its sextet. -/
theorem b64_index_chr : ∀ s, s < 64 → b64index (b64chr s) = some s := by decide

/-- No alphabet character is the padding character. -/
theorem b64chr_ne_pad : ∀ s, s < 64 → b64chr s ≠ '=' := by decide

/-- The encoder always produces a multiple of four characters. -/
theorem b64encodeBytes_length : ∀ x : List Nat, (b64encodeBytes x).length % 4 = 0
  | _ :: _ :: _ :: rest => by
    have ih := b64encodeBytes_length rest
    simp only [b64encodeBytes, List.length_cons]
    omega
  | [_, _] => by simp [b64encodeBytes]
  | [_] => by simp [b64encodeBytes]
  | [] => by simp [b64encodeBytes]

/-- A non-empty byte list encodes to at least one four-character group. -/
theorem b64encodeBytes_length_ge : ∀ x : List Nat, x ≠ [] → 4 ≤ (b64encodeBytes x).length
  | _ :: _ :: _ :: _, _ => by simp [b64encodeBytes]
  | [_, _], _ => by simp [b64encodeBytes]
  | [_], _ => by simp [b64encodeBytes]
  | [], hne => absurd rfl hne

/-- Pad stripping removes at most the last two characters. -/
theorem dropTrailingPad_length (cs : List Char) :
    (dropTrailingPad cs).length = cs.length ∨
      (dropTrailingPad cs).length = cs.length - 1 ∨
      (dropTrailingPad cs).length = cs.length - 2 := by
  unfold dropTrailingPad
  by_cases h2 : cs.reverse.take 2 = ['=', '=']
  · right; right; simp [h2]
  · by_cases h1 : cs.reverse.take 1 = ['=']
    · right; left; simp [h2, h1]
    · left; simp [h2, h1]

/-- Pad stripping only inspects the end of the string, so a leading
segment passes through unchanged. -/
theorem dropTrailingPad_append (xs ys : List Char) (h : 2 ≤ ys.length) :
    dropTrailingPad (xs ++ ys) = xs ++ dropTrailingPad ys := by
  have h2 : 2 ≤ ys.reverse.length := by simpa using h
  have h1 : 1 ≤ ys.reverse.length := by omega
  unfold dropTrailingPad
  rw [List.reverse_append,
    List.take_append_of_le_length h2, List.take_append_of_le_length h1,
    List.drop_append_of_le_length h2, List.drop_append_of_le_length h1]
  by_cases hpp : ys.reverse.take 2 = ['=', '=']
  · simp [hpp]
  · by_cases hp : ys.reverse.take 1 = ['=']
    · simp [hpp, hp]
    · simp [hpp, hp]

/-- A final group ending in `==` strips to its two alphabet characters. -/
theorem dropTrailingPad_pad2 (t1 t2 : Char) :
    dropTrailingPad [t1, t2, '=', '='] = [t1, t2] := by
  simp [dropTrailingPad]

/-- A final group ending in a single `=` strips to three characters. -/
theorem dropTrailingPad_pad1 (t1 t2 t3 : Char) (h : t3 ≠ '=') :
    dropTrailingPad [t1, t2, t3, '='] = [t1, t2, t3] := by
  simp [dropTrailingPad, h]

/-- A full final group is left alone. -/
theorem dropTrailingPad_nopad (t1 t2 t3 t4 : Char) (h : t4 ≠ '=') :
    dropTrailingPad [t1, t2, t3, t4] = [t1, t2, t3, t4] := by
  simp [dropTrailingPad, h]

/-- Decoding inverts encoding, group by group. -/
theorem b64decodeGroups_encode : ∀ x : List Nat, (∀ b ∈ x, b < 256) →
    b64decodeGroups (dropTrailingPad (b64encodeBytes x)) = some x
  | [] => fun _ => by simp [b64encodeBytes, dropTrailingPad, b64decodeGroups]
  | [a] => fun h => by
    have ha : a < 256 := h a (by simp)
    simp only [b64encodeBytes]
    rw [dropTrailingPad_pad2]
    simp only [b64decodeGroups, b64_index_chr (a / 4) (by omega),
      b64_index_chr (a * 16 % 64) (by omega), Option.bind_eq_bind, Option.some_bind]
    simp only [Option.pure_def, Option.some.injEq, List.cons.injEq, and_true]
    omega
  | [a, b] => fun h => by
    have ha : a < 256 := h a (by simp)
    have hb : b < 256 := h b (by simp)
    simp only [b64encodeBytes]
    rw [dropTrailingPad_pad1 _ _ _ (b64chr_ne_pad _ (by omega))]
    simp only [b64decodeGroups, b64_index_chr ((a * 256 + b) / 1024) (by omega),
      b64_index_chr ((a * 256 + b) / 16 % 64) (by omega),
      b64_index_chr ((a * 256 + b) * 4 % 64) (by omega), Option.bind_eq_bind, Option.some_bind]
    simp only [Option.pure_def, Option.some.injEq, List.cons.injEq, and_true]
    constructor <;> omega
  | a :: b :: c :: rest => fun h => by
    have ha : a < 256 := h a (by simp)
    have hb : b < 256 := h b (by simp)
    have hc : c < 256 := h c (by simp)
    have ih := b64decodeGroups_encode rest (fun y hy => h y (by simp [hy]))
    simp only [b64encodeBytes]
    by_cases hrest : rest = []
    · subst hrest
      simp only [b64encodeBytes]
      rw [show ∀ t1 t2 t3 t4 : Char, t1 :: t2 :: t3 :: t4 :: ([] : List Char) =
          [t1, t2, t3, t4] from fun _ _ _ _ => rfl]
      rw [dropTrailingPad_nopad _ _ _ _
        (b64chr_ne_pad ((a * 65536 + b * 256 + c) % 64) (by omega))]
      simp only [b64decodeGroups, Option.bind_eq_bind, Option.some_bind,
        b64_index_chr ((a * 65536 + b * 256 + c) / 262144 % 64) (by omega),
        b64_index_chr ((a * 65536 + b * 256 + c) / 4096 % 64) (by omega),
        b64_index_chr ((a * 65536 + b * 256 + c) / 64 % 64) (by omega),
        b64_index_chr ((a * 65536 + b * 256 + c) % 64) (by omega)]
      simp only [Option.pure_def, Option.some.injEq, List.cons.injEq, and_true]
      refine ⟨by omega, by omega, by omega⟩
    · have hlen : 2 ≤ (b64encodeBytes rest).length := by
        have := b64encodeBytes_length_ge rest hrest
        omega
      rw [show ∀ t1 t2 t3 t4 : Char, ∀ l : List Char,
          t1 :: t2 :: t3 :: t4 :: l = [t1, t2, t3, t4] ++ l from
          fun _ _ _ _ _ => rfl]
      rw [dropTrailingPad_append _ _ hlen]
      simp only [List.cons_append, List.nil_append]
      simp only [b64decodeGroups, Option.bind_eq_bind, Option.some_bind,
        b64_index_chr ((a * 65536 + b * 256 + c) / 262144 % 64) (by omega),
        b64_index_chr ((a * 65536 + b * 256 + c) / 4096 % 64) (by omega),
        b64_index_chr ((a * 65536 + b * 256 + c) / 64 % 64) (by omega),
        b64_index_chr ((a * 65536 + b * 256 + c) % 64) (by omega), ih]
      simp only [Option.pure_def, Option.some.injEq, List.cons.injEq, and_true]
      refine ⟨by omega, by omega, by omega⟩

end GeminiLive

namespace GeminiLive

/-! ## Claim C8 -/

/-- C8: for every byte buffer `x` — including the zero-length buffer and
buffers containing every byte value 0 through 255 —
`base64ToArrayBuffer (arrayBufferToBase64 x)` returns `x` (bytes are the
values of a `Uint8Array`, hence < 256). -/
theorem c8_base64_roundtrip (x : List Nat) (h : ∀ b ∈ x, b < 256) :
    base64ToArrayBuffer (arrayBufferToBase64 x) = some x := by
  show b64decodeChars (b64encodeBytes x) = some x
  have hlen := b64encodeBytes_length x
  have hne : (dropTrailingPad (b64encodeBytes x)).length % 4 ≠ 1 := by
    rcases dropTrailingPad_length (b64encodeBytes x) with h1 | h1 | h1 <;> omega
  simp only [b64decodeChars]
  rw [if_pos hlen, if_neg hne]
  exact b64decodeGroups_encode x h

/-- Witness for C8 at the buffer containing all byte values 0–255. -/
theorem c8_base64_roundtrip_witness :
    (∀ b ∈ List.range 256, b < 256) ∧
      base64ToArrayBuffer (arrayBufferToBase64 (List.range 256)) =
        some (List.range 256) :=
  ⟨fun _ hb => List.mem_range.mp hb,
   c8_base64_roundtrip (List.range 256) (fun _ hb => List.mem_range.mp hb)⟩

end GeminiLive

namespace GeminiLive

/-! ## Client state machine lemmas and claims C1, C2, C3, C9, C10 -/

/-- While an attempt is outstanding, any sequence of further `connect`
calls leaves the state untouched, constructs no transport, and hands every
caller the identical outstanding promise. -/
theorem connectSeq_outstanding (env : Nat → WSReadyState) (s : ClientState)
    (p : Nat) (h : s.connectionAttempt = some p) :
    ∀ calls : List (LiveConfig × Nat),
      connectSeq env s calls =
        (s, calls.map (fun _ => ConnectReturn.existingAttempt p), 0)
  | [] => by simp [connectSeq]
  | (cfg, q) :: rest => by
    have hc : connect env s cfg q = ⟨s, .existingAttempt p, false, []⟩ := by
      simp [connect, h]
    have ih := connectSeq_outstanding env s p h rest
    simp [connectSeq, hc, ih]

/-- C1: from an idle client, the first `connect` constructs exactly one
WebSocket and installs a fresh attempt; every `connect` issued while that
attempt is outstanding constructs nothing and receives the identical
promise (hence resolves or rejects with the same outcome); and a `connect`
issued while the connection is already OPEN returns success without
creating a transport. -/
theorem c1_connect_coalesces (env : Nat → WSReadyState) (s : ClientState)
    (config : LiveConfig) (pid : Nat) (calls : List (LiveConfig × Nat))
    (hAtt : s.connectionAttempt = none) (hWs : s.ws = none) :
    ((connect env s config pid).wsCreated = true ∧
      (connect env s config pid).ret = .newAttempt pid) ∧
    connectSeq env (connect env s config pid).state calls =
      ((connect env s config pid).state,
        calls.map (fun _ => ConnectReturn.existingAttempt pid), 0) ∧
    (∀ s2 : ClientState, ∀ w cfg2 q, s2.connectionAttempt = none →
      s2.ws = some w → env w = .OPEN →
      connect env s2 cfg2 q = ⟨s2, .alreadyOpenTrue, false, []⟩) := by
  have hstate : (connect env s config pid).state.connectionAttempt = some pid := by
    simp [connect, hAtt, hWs]
  refine ⟨⟨?_, ?_⟩, ?_, ?_⟩
  · simp [connect, hAtt, hWs]
  · simp [connect, hAtt, hWs]
  · exact connectSeq_outstanding env _ pid hstate calls
  · intro s2 w cfg2 q h1 h2 h3
    simp [connect, h1, h2, h3]

/-- Witness for C1 with two coalesced callers against an idle client. -/
theorem c1_connect_coalesces_witness :
    (initialClientState.connectionAttempt = none ∧ initialClientState.ws = none) ∧
    ((connect (fun _ => .OPEN) initialClientState { model := "m1" } 0).wsCreated = true ∧
      (connect (fun _ => .OPEN) initialClientState { model := "m1" } 0).ret = .newAttempt 0) ∧
    connectSeq (fun _ => .OPEN)
        (connect (fun _ => .OPEN) initialClientState { model := "m1" } 0).state
        [({ model := "m2" }, 7), ({ model := "m3" }, 8)] =
      ((connect (fun _ => .OPEN) initialClientState { model := "m1" } 0).state,
        [ConnectReturn.existingAttempt 0, ConnectReturn.existingAttempt 0], 0) ∧
    (∀ s2 : ClientState, ∀ w cfg2 q, s2.connectionAttempt = none →
      s2.ws = some w → (fun _ : Nat => WSReadyState.OPEN) w = .OPEN →
      connect (fun _ => .OPEN) s2 cfg2 q = ⟨s2, .alreadyOpenTrue, false, []⟩) :=
  ⟨⟨rfl, rfl⟩,
    c1_connect_coalesces (fun _ => .OPEN) initialClientState { model := "m1" } 0
      [({ model := "m2" }, 7), ({ model := "m3" }, 8)] rfl rfl⟩

/-- C10 (implicit): a `connect(config2)` that coalesces onto an
outstanding attempt, or that returns early because the socket is already
open, performs no action at all — in particular `config2` is never
installed (the stored configuration is unchanged) and no setup frame or
other action results from the call. -/
theorem c10_coalesced_connect_discards_config (env : Nat → WSReadyState)
    (s : ClientState) (config2 : LiveConfig) (q : Nat)
    (h : (∃ p, s.connectionAttempt = some p) ∨
      (s.connectionAttempt = none ∧ ∃ w, s.ws = some w ∧ env w = .OPEN)) :
    (connect env s config2 q).state = s ∧
    (connect env s config2 q).state.config = s.config ∧
    (connect env s config2 q).actions = [] ∧
    (connect env s config2 q).wsCreated = false := by
  rcases h with ⟨p, hp⟩ | ⟨hn, w, hw, ho⟩
  · refine ⟨?_, ?_, ?_, ?_⟩ <;> simp [connect, hp]
  · refine ⟨?_, ?_, ?_, ?_⟩ <;> simp [connect, hn, hw, ho]

/-- Witness for C10: a second configuration offered mid-attempt is
silently discarded. -/
theorem c10_coalesced_connect_discards_config_witness :
    ({ connectionAttempt := some 3, config := some { model := "m1" } } :
        ClientState).connectionAttempt = some 3 ∧
    (connect (fun _ => .OPEN)
        { connectionAttempt := some 3, config := some { model := "m1" } }
        { model := "m2" } 9).state.config = some { model := "m1" } ∧
    (connect (fun _ => .OPEN)
        { connectionAttempt := some 3, config := some { model := "m1" } }
        { model := "m2" } 9).actions = [] ∧
    (connect (fun _ => .OPEN)
        { connectionAttempt := some 3, config := some { model := "m1" } }
        { model := "m2" } 9).wsCreated = false := by
  have h := c10_coalesced_connect_discards_config (fun _ => .OPEN)
    { connectionAttempt := some 3, config := some { model := "m1" } }
    { model := "m2" } 9 (Or.inl ⟨3, rfl⟩)
  exact ⟨rfl, h.2.1.trans rfl, h.2.2.1, h.2.2.2⟩

end GeminiLive

namespace GeminiLive

/-- The action trace of a successful connection from an idle client,
written out. -/
theorem successfulConnectTrace_eq (env : Nat → WSReadyState) (s : ClientState)
    (config : LiveConfig) (wsId pid : Nat)
    (hAtt : s.connectionAttempt = none) (hWs : s.ws = none)
    (hEnv : env wsId = .OPEN) :
    successfulConnectTrace env s config wsId pid =
      [.emitEv (.logEv "client.connect"), .emitEv .connecting,
       .emitEv (.logEv "client.open"), .sendFrame (.setup config),
       .emitEv (.logEv "client.send"), .emitEv .openEv,
       .resolveAttempt pid true] := by
  simp [successfulConnectTrace, connect, hAtt, hWs, onOpen, sendDirect, hEnv]

/-- C2: on every successful connection the setup frame carrying the
configuration is the only frame in the trace — hence the first — it is
sent exactly once, and its transmission strictly precedes the emission of
the (unique) `open` event. -/
theorem c2_setup_frame_first (env : Nat → WSReadyState) (s : ClientState)
    (config : LiveConfig) (wsId pid : Nat)
    (hAtt : s.connectionAttempt = none) (hWs : s.ws = none)
    (hEnv : env wsId = .OPEN) :
    sentFrames (successfulConnectTrace env s config wsId pid) =
      [Frame.setup config] ∧
    (successfulConnectTrace env s config wsId pid).countP isSendAction = 1 ∧
    (successfulConnectTrace env s config wsId pid).countP isOpenEmit = 1 ∧
    (successfulConnectTrace env s config wsId pid).findIdx isSendAction <
      (successfulConnectTrace env s config wsId pid).findIdx isOpenEmit := by
  rw [successfulConnectTrace_eq env s config wsId pid hAtt hWs hEnv]
  refine ⟨?_, ?_, ?_, ?_⟩
  · simp [sentFrames]
  · simp [List.countP_cons, isSendAction]
  · simp [List.countP_cons, isOpenEmit]
  · simp [List.findIdx_cons, isSendAction, isOpenEmit]

/-- Witness for C2 on a concrete connection. -/
theorem c2_setup_frame_first_witness :
    (initialClientState.connectionAttempt = none ∧ initialClientState.ws = none ∧
      (fun _ : Nat => WSReadyState.OPEN) 0 = .OPEN) ∧
    sentFrames (successfulConnectTrace (fun _ => .OPEN) initialClientState
        { model := "m1" } 0 0) = [Frame.setup { model := "m1" }] ∧
    (successfulConnectTrace (fun _ => .OPEN) initialClientState
        { model := "m1" } 0 0).countP isSendAction = 1 ∧
    (successfulConnectTrace (fun _ => .OPEN) initialClientState
        { model := "m1" } 0 0).countP isOpenEmit = 1 ∧
    (successfulConnectTrace (fun _ => .OPEN) initialClientState
        { model := "m1" } 0 0).findIdx isSendAction <
      (successfulConnectTrace (fun _ => .OPEN) initialClientState
        { model := "m1" } 0 0).findIdx isOpenEmit :=
  ⟨⟨rfl, rfl, rfl⟩,
    c2_setup_frame_first (fun _ => .OPEN) initialClientState { model := "m1" }
      0 0 rfl rfl rfl⟩

/-- C3: a `disconnect()` on a client holding a (not already CLOSED)
transport emits exactly one close notification, with code 1000; it marks
closing initiated, nulls the handle and clears the attempt; a second
`disconnect()` is a complete no-op; and after the deliberate disconnect a
transport-originated close or error event is suppressed entirely. -/
theorem c3_disconnect_idempotent (env : Nat → WSReadyState) (s : ClientState)
    (w : Nat) (hClosing : s.closingInitiated = false) (hWs : s.ws = some w)
    (hNotClosed : env w ≠ .CLOSED) :
    closeEmits (disconnect env s).2 = [(1000, "Client requested disconnect")] ∧
    (disconnect env s).1.closingInitiated = true ∧
    (disconnect env s).1.ws = none ∧
    (disconnect env s).1.connectionAttempt = none ∧
    disconnect env (disconnect env s).1 = ((disconnect env s).1, []) ∧
    (∀ code reason,
      handleClose (disconnect env s).1 code reason = ((disconnect env s).1, [])) ∧
    handleError (disconnect env s).1 = ((disconnect env s).1, []) := by
  have hd : disconnect env s =
      ({ s with closingInitiated := true, ws := none, connectionAttempt := none },
       [.emitEv (.logEv "client.disconnect"),
        .emitEv (.closeEv 1000 "Client requested disconnect")]) := by
    simp [disconnect, hClosing, hWs, hNotClosed]
  rw [hd]
  refine ⟨rfl, rfl, rfl, rfl, ?_, ?_, ?_⟩
  · simp [disconnect]
  · intro code reason
    simp [handleClose]
  · simp [handleError]

/-- Witness for C3 on a concrete connected client. -/
theorem c3_disconnect_idempotent_witness :
    (({ ws := some 0, config := some { model := "m1" } } :
        ClientState).closingInitiated = false ∧
      ({ ws := some 0, config := some { model := "m1" } } :
        ClientState).ws = some 0 ∧
      (fun _ : Nat => WSReadyState.OPEN) 0 ≠ .CLOSED) ∧
    closeEmits (disconnect (fun _ => .OPEN)
        { ws := some 0, config := some { model := "m1" } }).2 =
      [(1000, "Client requested disconnect")] ∧
    disconnect (fun _ => .OPEN)
        (disconnect (fun _ => .OPEN)
          { ws := some 0, config := some { model := "m1" } }).1 =
      ((disconnect (fun _ => .OPEN)
          { ws := some 0, config := some { model := "m1" } }).1, []) ∧
    handleError (disconnect (fun _ => .OPEN)
        { ws := some 0, config := some { model := "m1" } }).1 =
      ((disconnect (fun _ => .OPEN)
          { ws := some 0, config := some { model := "m1" } }).1, []) := by
  have h := c3_disconnect_idempotent (fun _ => .OPEN)
    { ws := some 0, config := some { model := "m1" } } 0 rfl rfl (by decide)
  exact ⟨⟨rfl, rfl, by decide⟩, h.1, h.2.2.2.2.1, h.2.2.2.2.2.2⟩

/-- C9 counterexample: in the reachable post-open state, a transport
`error` event is surfaced to subscribers by `handleError`, yet the
transport handle is *not* nulled — it still points at socket 0 — so the
claim that every failure-detecting transport event clears the handle is
false of the code (the nulling is commented out in the source,
multimodal-live-client.ts:311-313). -/
theorem c9_error_keeps_handle_counterexample :
    (onOpen (fun _ => .OPEN)
        (connect (fun _ => .OPEN) initialClientState { model := "m1" } 0).state
        0 0).1.ws = some 0 ∧
    (onOpen (fun _ => .OPEN)
        (connect (fun _ => .OPEN) initialClientState { model := "m1" } 0).state
        0 0).1.closingInitiated = false ∧
    (handleError (onOpen (fun _ => .OPEN)
        (connect (fun _ => .OPEN) initialClientState { model := "m1" } 0).state
        0 0).1).2 ≠ [] ∧
    (handleError (onOpen (fun _ => .OPEN)
        (connect (fun _ => .OPEN) initialClientState { model := "m1" } 0).state
        0 0).1).1.ws = some 0 := by
  refine ⟨rfl, rfl, ?_, rfl⟩
  decide

/-- C9 amended: every *handshake* failure path (`cleanupAndReject`, hence
the attempt's `onError` and early-close handlers) and every surfaced
transport close event null the transport handle and clear the in-flight
attempt handle; the post-open transport `error` handler, however, leaves
the state — including the transport handle — completely unchanged. -/
theorem c9_failure_paths_amended :
    (∀ s : ClientState, ∀ pid, (cleanupAndReject s pid).1.ws = none ∧
      (cleanupAndReject s pid).1.connectionAttempt = none) ∧
    (∀ s : ClientState, ∀ code reason, s.closingInitiated = false →
      (handleClose s code reason).1.ws = none ∧
        (handleClose s code reason).1.connectionAttempt = none) ∧
    (∀ s : ClientState, (handleError s).1 = s) := by
  refine ⟨fun s pid => ⟨rfl, rfl⟩, fun s code reason h => ?_, fun s => ?_⟩
  · simp [handleClose, h]
  · unfold handleError
    split <;> rfl

/-- Witness for C9 (amended) at concrete states. -/
theorem c9_failure_paths_amended_witness :
    ((cleanupAndReject { ws := some 2, connectionAttempt := some 5 } 5).1.ws = none ∧
      (cleanupAndReject { ws := some 2, connectionAttempt := some 5 } 5).1.connectionAttempt = none) ∧
    (({ ws := some 2 } : ClientState).closingInitiated = false ∧
      (handleClose { ws := some 2 } 1006 "abnormal").1.ws = none ∧
      (handleClose { ws := some 2 } 1006 "abnormal").1.connectionAttempt = none) ∧
    handleError { ws := some 2 } = ({ ws := some 2 }, (handleError { ws := some 2 }).2) := by
  have h := c9_failure_paths_amended
  refine ⟨h.1 { ws := some 2, connectionAttempt := some 5 } 5, ⟨rfl, h.2.1 { ws := some 2 } 1006 "abnormal" rfl⟩, ?_⟩
  have h2 := h.2.2 { ws := some 2 }
  exact Prod.ext h2 rfl

end GeminiLive

namespace GeminiLive

/-! ## Dispatcher lemmas and claims C4, C7 -/

/-- Every action produced by the audio loop body is an audio emit, an
audio log, or the error log/event pair of a failed decode. -/
theorem emitAudioPart_shape (p : ContentPart) :
    ∀ a ∈ emitAudioPart p,
      (∃ bytes, a = .emitEv (.audioEv bytes)) ∨
        a = .emitEv (.logEv "server.audio") ∨
        a = .emitEv (.logEv "error.audio") ∨ a = .emitEv .errorEv := by
  intro a ha
  rcases hd : p.inlineData with _ | d
  · simp [emitAudioPart, hd] at ha
  · by_cases hde : d = ""
    · simp [emitAudioPart, hd, hde] at ha
    · simp only [emitAudioPart, hd, if_neg hde] at ha
      rcases hdec : base64ToArrayBuffer d with _ | bytes <;>
          simp only [hdec] at ha <;> simp at ha <;>
        rcases ha with h | h <;> simp [h]

/-- The model-turn loop emits no `content` and no `turncomplete` event. -/
theorem processModelTurn_counts (parts : List ContentPart) :
    (processModelTurn parts).countP isContentEmit = 0 ∧
      (processModelTurn parts).countP isTurncompleteEmit = 0 := by
  constructor <;>
    · rw [List.countP_eq_zero]
      intro a ha
      unfold processModelTurn at ha
      rw [List.mem_flatMap] at ha
      obtain ⟨p, _, hmem⟩ := ha
      rcases emitAudioPart_shape p a hmem with ⟨bytes, h⟩ | h | h | h <;>
        simp [h, isContentEmit, isTurncompleteEmit]

/-- When every selected part carries nonempty data that decodes, the loop
emits exactly one audio event per part, in part order. -/
theorem flatMap_emitAudioPart_count (l : List ContentPart)
    (h : ∀ p ∈ l, ∃ d bytes, p.inlineData = some d ∧ d ≠ "" ∧
      base64ToArrayBuffer d = some bytes) :
    (l.flatMap emitAudioPart).countP isAudioEmit = l.length := by
  induction l with
  | nil => simp
  | cons p rest ih =>
    obtain ⟨d, bytes, hd, hde, hdec⟩ := h p (List.mem_cons_self p rest)
    rw [List.flatMap_cons, List.countP_append,
      ih (fun q hq => h q (List.mem_cons_of_mem p hq))]
    simp [emitAudioPart, hd, hde, hdec, isAudioEmit, List.length_cons]
    omega

/-- The dispatcher's trace for a server-content envelope with a model turn
and a turn-complete marker, written out. -/
theorem processIncomingMessage_serverContent_eq (sc : ServerContent)
    (parts : List ContentPart) (hmt : sc.modelTurn = some parts)
    (htc : sc.turnComplete = true) :
    processIncomingMessage (.serverContent sc) =
      [Action.emitEv (.logEv "server.receive"), Action.emitEv (.contentEv sc)] ++
        (if sc.interrupted then
          [Action.emitEv (.logEv "server.interrupted"), Action.emitEv .interruptedEv]
         else []) ++
        [Action.emitEv (.logEv "server.turnComplete"),
          Action.emitEv .turncompleteEv] ++
        processModelTurn parts := by
  simp [processIncomingMessage, isInterrupted, isTurnComplete, htc, hmt]

/-- C4: for every inbound `ServerContent` envelope carrying both a model
turn and a turn-complete marker, the dispatcher emits exactly one
`content` event and exactly one `turncomplete` event, the `content` event
strictly precedes the `turncomplete` event, every `audio` event comes
after the `turncomplete` event, the number of `audio` events equals the
number of audio parts whenever each audio part carries nonempty data that
decodes, and a
Base64 decode failure of one part is reported as an `error.audio` log plus
`error` event in place, without aborting the processing of the parts
around it. -/
theorem c4_dispatch_order (sc : ServerContent) (parts : List ContentPart)
    (hmt : sc.modelTurn = some parts) (htc : sc.turnComplete = true) :
    (processIncomingMessage (.serverContent sc)).countP isContentEmit = 1 ∧
    (processIncomingMessage (.serverContent sc)).countP isTurncompleteEmit = 1 ∧
    (processIncomingMessage (.serverContent sc)).findIdx isContentEmit <
      (processIncomingMessage (.serverContent sc)).findIdx isTurncompleteEmit ∧
    ((processIncomingMessage (.serverContent sc)).takeWhile
        (fun a => !isTurncompleteEmit a)).countP isAudioEmit = 0 ∧
    ((∀ p ∈ parts, isAudioPart p = true → ∃ d bytes, p.inlineData = some d ∧
        d ≠ "" ∧ base64ToArrayBuffer d = some bytes) →
      (processIncomingMessage (.serverContent sc)).countP isAudioEmit =
        (parts.filter isAudioPart).length) ∧
    (∀ xs ys : List ContentPart, ∀ bad : ContentPart, ∀ d : String,
      isAudioPart bad = true → bad.inlineData = some d →
      base64ToArrayBuffer d = none →
      processModelTurn (xs ++ bad :: ys) =
        processModelTurn xs ++
          [.emitEv (.logEv "error.audio"), .emitEv .errorEv] ++
          processModelTurn ys) := by
  have hevs := processIncomingMessage_serverContent_eq sc parts hmt htc
  obtain ⟨hc0, ht0⟩ := processModelTurn_counts parts
  refine ⟨?_, ?_, ?_, ?_, ?_, ?_⟩
  · rw [hevs]
    cases hi : sc.interrupted <;>
      simp [List.countP_append, List.countP_cons, isContentEmit, hc0]
  · rw [hevs]
    cases hi : sc.interrupted <;>
      simp [List.countP_append, List.countP_cons, isTurncompleteEmit, ht0]
  · rw [hevs]
    cases hi : sc.interrupted <;>
      simp [List.findIdx_cons, isContentEmit, isTurncompleteEmit]
  · rw [hevs]
    cases hi : sc.interrupted <;>
      simp [List.takeWhile, isTurncompleteEmit, isContentEmit, isAudioEmit,
        List.countP_cons]
  · intro hdec
    rw [hevs]
    have hcnt : (processModelTurn parts).countP isAudioEmit =
        (parts.filter isAudioPart).length := by
      unfold processModelTurn
      refine flatMap_emitAudioPart_count _ (fun p hp => ?_)
      exact hdec p (List.mem_of_mem_filter hp) (List.of_mem_filter hp)
    cases hi : sc.interrupted <;>
      simp [List.countP_append, List.countP_cons, isAudioEmit, hcnt]
  · intro xs ys bad d hbad hd hdec
    have hde : d ≠ "" := by
      intro he
      rw [he] at hdec
      exact absurd hdec (by decide)
    unfold processModelTurn
    rw [List.filter_append, List.filter_cons]
    simp only [hbad, if_pos]
    rw [List.flatMap_append, List.flatMap_cons]
    simp [emitAudioPart, hd, hde, hdec]

/-- Witness for C4: a turn with two good audio parts, a malformed audio
part checked separately (`"A"` is a one-character Base64 string, which
`decode` rejects), and an empty-data audio part, which the JS truthiness
guard skips without emitting anything. -/
theorem c4_dispatch_order_witness :
    (({ modelTurn := some
          [{ inlineMimeType := some "audio/pcm", inlineData := some "TWFu" },
           { inlineMimeType := some "audio/pcm", inlineData := some "TQ==" }],
        turnComplete := true } : ServerContent).modelTurn = some
          [{ inlineMimeType := some "audio/pcm", inlineData := some "TWFu" },
           { inlineMimeType := some "audio/pcm", inlineData := some "TQ==" }]) ∧
    (processIncomingMessage (.serverContent
        { modelTurn := some
            [{ inlineMimeType := some "audio/pcm", inlineData := some "TWFu" },
             { inlineMimeType := some "audio/pcm", inlineData := some "TQ==" }],
          turnComplete := true })).countP isContentEmit = 1 ∧
    (processIncomingMessage (.serverContent
        { modelTurn := some
            [{ inlineMimeType := some "audio/pcm", inlineData := some "TWFu" },
             { inlineMimeType := some "audio/pcm", inlineData := some "TQ==" }],
          turnComplete := true })).countP isTurncompleteEmit = 1 ∧
    (processIncomingMessage (.serverContent
        { modelTurn := some
            [{ inlineMimeType := some "audio/pcm", inlineData := some "TWFu" },
             { inlineMimeType := some "audio/pcm", inlineData := some "TQ==" }],
          turnComplete := true })).countP isAudioEmit = 2 ∧
    processModelTurn
        [{ inlineMimeType := some "audio/pcm", inlineData := some "A" }] =
      [.emitEv (.logEv "error.audio"), .emitEv .errorEv] ∧
    processModelTurn
        [{ inlineMimeType := some "audio/pcm", inlineData := some "" }] = [] := by
  have h := c4_dispatch_order
    { modelTurn := some
        [{ inlineMimeType := some "audio/pcm", inlineData := some "TWFu" },
         { inlineMimeType := some "audio/pcm", inlineData := some "TQ==" }],
      turnComplete := true }
    [{ inlineMimeType := some "audio/pcm", inlineData := some "TWFu" },
     { inlineMimeType := some "audio/pcm", inlineData := some "TQ==" }]
    rfl rfl
  refine ⟨rfl, h.1, h.2.1, ?_, ?_, by decide⟩
  · have hdec : ∀ p ∈
        [({ inlineMimeType := some "audio/pcm", inlineData := some "TWFu" } :
            ContentPart),
         { inlineMimeType := some "audio/pcm", inlineData := some "TQ==" }],
        isAudioPart p = true → ∃ d bytes, p.inlineData = some d ∧ d ≠ "" ∧
          base64ToArrayBuffer d = some bytes := by
      intro p hp _
      rcases List.mem_cons.mp hp with h1 | h1
      · exact ⟨"TWFu", [77, 97, 110], by rw [h1], by decide, by decide⟩
      · rcases List.mem_cons.mp h1 with h2 | h2
        · exact ⟨"TQ==", [77], by rw [h2], by decide, by decide⟩
        · exact absurd h2 (List.not_mem_nil p)
    have hcount := h.2.2.2.2.1 hdec
    rw [hcount]
    decide
  · have hfail := h.2.2.2.2.2 []
      [] { inlineMimeType := some "audio/pcm", inlineData := some "A" } "A"
      (by decide) rfl (by decide)
    simpa [processModelTurn] using hfail

/-- C7: with the socket open, `send` filters out every part in which all
payload fields are empty before transmission — the transmitted frame, when
any, carries exactly the surviving parts — and when nothing survives no
frame is transmitted at all. -/
theorem c7_send_filters_empty_parts (env : Nat → WSReadyState) (s : ClientState)
    (w : Nat) (parts : List ContentPart) (turnComplete : Bool)
    (hWs : s.ws = some w) (hEnv : env w = .OPEN) :
    sentFrames (send env s parts turnComplete) =
      (if parts.filter isTruthyPart = [] then []
       else [Frame.clientContent (parts.filter isTruthyPart) turnComplete]) ∧
    ((∀ p ∈ parts, isTruthyPart p = false) →
      send env s parts turnComplete = [.emitEv (.logEv "warn.send")]) := by
  constructor
  · by_cases hf : parts.filter isTruthyPart = []
    · simp [send, hWs, hEnv, hf, sentFrames]
    · simp [send, hWs, hEnv, sendDirect, hf, sentFrames,
        List.isEmpty_iff]
  · intro h
    have hf : parts.filter isTruthyPart = [] := by
      rw [List.filter_eq_nil_iff]
      intro p hp
      simp [h p hp]
    simp [send, hWs, hEnv, hf]

/-- Witness for C7: an all-empty part list (empty text is falsy in JS)
produces no frame. -/
theorem c7_send_filters_empty_parts_witness :
    (({ ws := some 0 } : ClientState).ws = some 0 ∧
      (fun _ : Nat => WSReadyState.OPEN) 0 = .OPEN) ∧
    sentFrames (send (fun _ => .OPEN) { ws := some 0 }
        [{ text := some "" }, {}] true) = [] ∧
    send (fun _ => .OPEN) { ws := some 0 } [{ text := some "" }, {}] true =
      [.emitEv (.logEv "warn.send")] := by
  have h := c7_send_filters_empty_parts (fun _ => .OPEN) { ws := some 0 } 0
    [{ text := some "" }, {}] true rfl rfl
  refine ⟨⟨rfl, rfl⟩, ?_, h.2 (by decide)⟩
  have h1 := h.1
  rw [if_pos (by decide)] at h1
  exact h1

end GeminiLive

namespace GeminiLive

/-! ## Scheduler lemmas -/

/-- Draining the queue touches only the queue, the playing flag, the
active slot and the play trace, and moves the dequeued item from the queue
to the play trace. -/
theorem playNextInQueue_spec (s : SchedState) :
    (playNextInQueue s).pendingWrites = s.pendingWrites ∧
    (playNextInQueue s).cleanupQueue = s.cleanupQueue ∧
    (playNextInQueue s).files = s.files ∧
    (playNextInQueue s).created = s.created ∧
    (playNextInQueue s).effDeletes = s.effDeletes ∧
    (playNextInQueue s).deleteCalls = s.deleteCalls ∧
    (playNextInQueue s).enqueueTrace = s.enqueueTrace ∧
    (playNextInQueue s).nextId = s.nextId ∧
    (playNextInQueue s).playTrace ++ (playNextInQueue s).playbackQueue =
      s.playTrace ++ s.playbackQueue := by
  unfold playNextInQueue
  cases hb : s.isPlayingAudio
  · cases hq : s.playbackQueue <;> simp [hq]
  · simp

/-- An idempotent delete call touches only `files`, `effDeletes` and
`deleteCalls`. -/
theorem deleteCallIdem_spec (s : SchedState) (u : Nat) :
    (deleteCallIdem s u).pendingWrites = s.pendingWrites ∧
    (deleteCallIdem s u).playbackQueue = s.playbackQueue ∧
    (deleteCallIdem s u).cleanupQueue = s.cleanupQueue ∧
    (deleteCallIdem s u).created = s.created ∧
    (deleteCallIdem s u).isPlayingAudio = s.isPlayingAudio ∧
    (deleteCallIdem s u).activeSound = s.activeSound ∧
    (deleteCallIdem s u).enqueueTrace = s.enqueueTrace ∧
    (deleteCallIdem s u).playTrace = s.playTrace ∧
    (deleteCallIdem s u).nextId = s.nextId ∧
    (deleteCallIdem s u).deleteCalls = s.deleteCalls ++ [(u, true)] := by
  unfold deleteCallIdem
  split <;> simp

/-- Membership in the files after an idempotent delete. -/
theorem deleteCallIdem_files_iff (s : SchedState) (u v : Nat)
    (hnd : s.files.Nodup) :
    v ∈ (deleteCallIdem s u).files ↔ v ∈ s.files ∧ v ≠ u := by
  unfold deleteCallIdem
  split
  · simp only
    rw [List.Nodup.mem_erase_iff hnd]
    tauto
  · next hu =>
    simp only
    constructor
    · intro hv
      refine ⟨hv, fun he => hu ?_⟩
      rwa [he] at hv
    · exact fun hv => hv.1

/-- An idempotent delete keeps the file list duplicate-free. -/
theorem deleteCallIdem_nodup (s : SchedState) (u : Nat)
    (hnd : s.files.Nodup) : (deleteCallIdem s u).files.Nodup := by
  unfold deleteCallIdem
  split
  · exact hnd.erase u
  · exact hnd

/-- Effective-deletion count after an idempotent delete. -/
theorem deleteCallIdem_count (s : SchedState) (u v : Nat) :
    (deleteCallIdem s u).effDeletes.count v =
      s.effDeletes.count v + (if v = u ∧ u ∈ s.files then 1 else 0) := by
  unfold deleteCallIdem
  split
  · next hu =>
    by_cases hv : v = u
    · subst hv
      simp [hu, List.count_append]
    · simp [hu, hv, List.count_append, List.count_cons]
  · next hu =>
    simp [hu]

/-- A fold of idempotent deletes touches only `files`, `effDeletes` and
`deleteCalls`. -/
theorem foldl_deleteCallIdem_spec (L : List Nat) :
    ∀ s : SchedState,
      ((L.foldl deleteCallIdem s).pendingWrites = s.pendingWrites ∧
       (L.foldl deleteCallIdem s).playbackQueue = s.playbackQueue ∧
       (L.foldl deleteCallIdem s).cleanupQueue = s.cleanupQueue ∧
       (L.foldl deleteCallIdem s).created = s.created ∧
       (L.foldl deleteCallIdem s).isPlayingAudio = s.isPlayingAudio ∧
       (L.foldl deleteCallIdem s).activeSound = s.activeSound ∧
       (L.foldl deleteCallIdem s).enqueueTrace = s.enqueueTrace ∧
       (L.foldl deleteCallIdem s).playTrace = s.playTrace ∧
       (L.foldl deleteCallIdem s).nextId = s.nextId) := by
  induction L with
  | nil => intro s; simp
  | cons a L ih =>
    intro s
    obtain ⟨a1, a2, a3, a4, a5, a6, a7, a8, a9, -⟩ := deleteCallIdem_spec s a
    obtain ⟨b1, b2, b3, b4, b5, b6, b7, b8, b9⟩ := ih (deleteCallIdem s a)
    simp only [List.foldl_cons]
    exact ⟨b1.trans a1, b2.trans a2, b3.trans a3, b4.trans a4, b5.trans a5,
      b6.trans a6, b7.trans a7, b8.trans a8, b9.trans a9⟩

/-- A fold of idempotent deletes keeps the file list duplicate-free. -/
theorem foldl_deleteCallIdem_nodup (L : List Nat) :
    ∀ s : SchedState, s.files.Nodup → (L.foldl deleteCallIdem s).files.Nodup := by
  induction L with
  | nil => intro s h; simpa using h
  | cons a L ih =>
    intro s h
    simpa only [List.foldl_cons] using ih _ (deleteCallIdem_nodup s a h)

/-- Membership in the files after a fold of idempotent deletes. -/
theorem foldl_deleteCallIdem_files_iff (L : List Nat) :
    ∀ s : SchedState, s.files.Nodup → ∀ v,
      (v ∈ (L.foldl deleteCallIdem s).files ↔ v ∈ s.files ∧ v ∉ L) := by
  induction L with
  | nil => intro s _ v; simp
  | cons a L ih =>
    intro s hnd v
    simp only [List.foldl_cons]
    rw [ih _ (deleteCallIdem_nodup s a hnd) v,
      deleteCallIdem_files_iff s a v hnd, List.mem_cons]
    tauto

/-- Effective-deletion counts after a fold of idempotent deletes: each
listed uri that still existed is effectively deleted exactly once. -/
theorem foldl_deleteCallIdem_count (L : List Nat) :
    ∀ s : SchedState, s.files.Nodup → ∀ v,
      (L.foldl deleteCallIdem s).effDeletes.count v =
        s.effDeletes.count v + (if v ∈ s.files ∧ v ∈ L then 1 else 0) := by
  induction L with
  | nil => intro s _ v; simp
  | cons a L ih =>
    intro s hnd v
    simp only [List.foldl_cons]
    rw [ih _ (deleteCallIdem_nodup s a hnd) v, deleteCallIdem_count s a v]
    obtain ⟨-, -, -, -, -, -, -, -, -, -⟩ := deleteCallIdem_spec s a
    by_cases hva : v = a
    · subst hva
      by_cases hvf : v ∈ s.files
      · have : v ∉ (deleteCallIdem s v).files := by
          rw [deleteCallIdem_files_iff s v v hnd]
          simp
        simp [hvf, this, List.mem_cons]
      · have : v ∉ (deleteCallIdem s v).files := by
          rw [deleteCallIdem_files_iff s v v hnd]
          simp
        simp [hvf, this]
    · have hmem : v ∈ (deleteCallIdem s a).files ↔ v ∈ s.files := by
        rw [deleteCallIdem_files_iff s a v hnd]
        simp [hva]
      by_cases hvf : v ∈ s.files <;>
        simp [hva, hvf, hmem, List.mem_cons]

/-- Every delete call issued by a fold of idempotent deletes carries the
idempotent flag. -/
theorem foldl_deleteCallIdem_calls (L : List Nat) :
    ∀ s : SchedState, (∀ c ∈ s.deleteCalls, c.2 = true) →
      ∀ c ∈ (L.foldl deleteCallIdem s).deleteCalls, c.2 = true := by
  induction L with
  | nil => intro s h; simpa using h
  | cons a L ih =>
    intro s h
    simp only [List.foldl_cons]
    refine ih _ (fun c hc => ?_)
    obtain ⟨-, -, -, -, -, -, -, -, -, hcalls⟩ := deleteCallIdem_spec s a
    rw [hcalls] at hc
    rcases List.mem_append.mp hc with h1 | h1
    · exact h c h1
    · simp at h1
      rw [h1]

end GeminiLive

namespace GeminiLive

/-- The invariant survives a queue drain. -/
theorem schedInv_playNext (s : SchedState) (inv : SchedInv s) :
    SchedInv (playNextInQueue s) := by
  obtain ⟨p1, p2, p3, p4, p5, p6, p7, p8, p9⟩ := playNextInQueue_spec s
  refine
    { filesNodup := ?_, files_sub_cleanup := ?_, files_sub_created := ?_,
      cleanup_sub_created := ?_, pending_not_created := ?_, status := ?_,
      eff_created := ?_, created_lt := ?_, pending_lt := ?_,
      callsIdem := ?_, playOrder := ?_ }
  · rw [p3]; exact inv.filesNodup
  · rw [p3, p2]; exact inv.files_sub_cleanup
  · rw [p3, p4]; exact inv.files_sub_created
  · rw [p2, p4]; exact inv.cleanup_sub_created
  · rw [p1, p4]; exact inv.pending_not_created
  · rw [p4, p3, p5]; exact inv.status
  · rw [p4, p5]; exact inv.eff_created
  · rw [p4, p8]; exact inv.created_lt
  · rw [p1, p8]; exact inv.pending_lt
  · rw [p6]; exact inv.callsIdem
  · rw [p9, p7]; exact inv.playOrder

/-- The invariant survives deleting the just-released item's transient
file, for any new cleanup list `C` that keeps every other existing file
and introduces no foreign uri (instantiated with the filtered list on
natural completion and with the untouched list on the error paths). -/
theorem schedInv_delete_active (t s : SchedState) (item : Nat) (C : List Nat)
    (inv : SchedInv s)
    (hfiles_iff : ∀ v, v ∈ t.files ↔ v ∈ s.files ∧ v ≠ item)
    (hfilesnd : t.files.Nodup)
    (hcq : t.cleanupQueue = C)
    (hcr : t.created = s.created)
    (hpw : t.pendingWrites = s.pendingWrites)
    (heff : ∀ v, t.effDeletes.count v =
      s.effDeletes.count v + (if v = item ∧ item ∈ s.files then 1 else 0))
    (hcalls : t.deleteCalls = s.deleteCalls ++ [(item, true)])
    (hpt : t.playTrace = s.playTrace) (hpq : t.playbackQueue = s.playbackQueue)
    (het : t.enqueueTrace = s.enqueueTrace) (hn : t.nextId = s.nextId)
    (hC1 : ∀ v, v ∈ s.files → v ≠ item → v ∈ C)
    (hC2 : ∀ v ∈ C, v ∈ s.created) :
    SchedInv t := by
  refine
    { filesNodup := hfilesnd, files_sub_cleanup := ?_, files_sub_created := ?_,
      cleanup_sub_created := ?_, pending_not_created := ?_, status := ?_,
      eff_created := ?_, created_lt := ?_, pending_lt := ?_,
      callsIdem := ?_, playOrder := ?_ }
  · intro u hu
    obtain ⟨huf, hne⟩ := (hfiles_iff u).mp hu
    rw [hcq]
    exact hC1 u huf hne
  · intro u hu
    rw [hcr]
    exact inv.files_sub_created u ((hfiles_iff u).mp hu).1
  · intro u hu
    rw [hcr]
    rw [hcq] at hu
    exact hC2 u hu
  · rw [hpw, hcr]; exact inv.pending_not_created
  · intro u hu
    rw [hcr] at hu
    rcases inv.status u hu with ⟨huf, hcnt⟩ | ⟨hnf, hcnt⟩
    · by_cases hui : u = item
      · subst hui
        right
        refine ⟨fun hm => ((hfiles_iff u).mp hm).2 rfl, ?_⟩
        rw [heff u, hcnt, if_pos ⟨rfl, huf⟩]
      · left
        refine ⟨(hfiles_iff u).mpr ⟨huf, hui⟩, ?_⟩
        rw [heff u, hcnt, if_neg (fun hcon => hui hcon.1)]
    · right
      refine ⟨fun hm => hnf ((hfiles_iff u).mp hm).1, ?_⟩
      have hind : ¬(u = item ∧ item ∈ s.files) := by
        rintro ⟨rfl, hif⟩
        exact hnf hif
      rw [heff u, hcnt, if_neg hind]
  · intro u hu
    rw [hcr] at hu
    have hind : ¬(u = item ∧ item ∈ s.files) := by
      rintro ⟨rfl, hif⟩
      exact hu (inv.files_sub_created u hif)
    rw [heff u, inv.eff_created u hu, if_neg hind]
  · rw [hcr, hn]; exact inv.created_lt
  · rw [hpw, hn]; exact inv.pending_lt
  · rw [hcalls]
    intro c hc
    rcases List.mem_append.mp hc with h1 | h1
    · exact inv.callsIdem c h1
    · simp at h1
      rw [h1]
  · rw [hpt, hpq, het]; exact inv.playOrder

/-- One scheduler step preserves the invariant. -/
theorem schedInv_step (s : SchedState) (e : SchedEvent) (inv : SchedInv s) :
    SchedInv (schedStep s e) := by
  cases e with
  | arrive =>
    refine
      { filesNodup := inv.filesNodup, files_sub_cleanup := inv.files_sub_cleanup,
        files_sub_created := inv.files_sub_created,
        cleanup_sub_created := inv.cleanup_sub_created,
        pending_not_created := ?_, status := inv.status,
        eff_created := inv.eff_created, created_lt := ?_, pending_lt := ?_,
        callsIdem := inv.callsIdem, playOrder := inv.playOrder }
    · intro u hu
      rcases List.mem_append.mp hu with h | h
      · exact inv.pending_not_created u h
      · simp at h
        subst h
        intro hc
        exact absurd (inv.created_lt _ hc) (lt_irrefl _)
    · intro u hu
      exact (inv.created_lt u hu).trans (Nat.lt_succ_self _)
    · intro u hu
      rcases List.mem_append.mp hu with h | h
      · exact (inv.pending_lt u h).trans (Nat.lt_succ_self _)
      · simp at h
        subst h
        exact Nat.lt_succ_self _
  | writeDone id =>
    by_cases hid : id ∈ s.pendingWrites
    · have hidc : id ∉ s.created := inv.pending_not_created id hid
      have hidf : id ∉ s.files := fun hf => hidc (inv.files_sub_created id hf)
      have inv2 : SchedInv
          { s with pendingWrites := s.pendingWrites.filter (· ≠ id),
                   files := s.files ++ [id], created := s.created ++ [id],
                   playbackQueue := s.playbackQueue ++ [id],
                   cleanupQueue := s.cleanupQueue ++ [id],
                   enqueueTrace := s.enqueueTrace ++ [id] } := by
        refine
          { filesNodup := ?_, files_sub_cleanup := ?_, files_sub_created := ?_,
            cleanup_sub_created := ?_, pending_not_created := ?_, status := ?_,
            eff_created := ?_, created_lt := ?_, pending_lt := ?_,
            callsIdem := inv.callsIdem, playOrder := ?_ }
        · rw [List.nodup_append]
          exact ⟨inv.filesNodup, List.nodup_singleton id,
            fun a ha hb => by simp at hb; subst hb; exact hidf ha⟩
        · intro u hu
          rcases List.mem_append.mp hu with h | h
          · exact List.mem_append_left _ (inv.files_sub_cleanup u h)
          · exact List.mem_append_right _ h
        · intro u hu
          rcases List.mem_append.mp hu with h | h
          · exact List.mem_append_left _ (inv.files_sub_created u h)
          · exact List.mem_append_right _ h
        · intro u hu
          rcases List.mem_append.mp hu with h | h
          · exact List.mem_append_left _ (inv.cleanup_sub_created u h)
          · exact List.mem_append_right _ h
        · intro u hu
          obtain ⟨h1, h2⟩ := List.mem_filter.mp hu
          have hne : u ≠ id := by simpa using h2
          intro hc
          rcases List.mem_append.mp hc with h | h
          · exact inv.pending_not_created u h1 h
          · simp at h
            exact hne h
        · intro u hu
          rcases List.mem_append.mp hu with h | h
          · rcases inv.status u h with ⟨huf, hcnt⟩ | ⟨hnf, hcnt⟩
            · exact Or.inl ⟨List.mem_append_left _ huf, hcnt⟩
            · refine Or.inr ⟨?_, hcnt⟩
              intro hm
              rcases List.mem_append.mp hm with h2 | h2
              · exact hnf h2
              · simp at h2
                subst h2
                exact hidc h
          · simp at h
            subst h
            exact Or.inl ⟨List.mem_append_right _ (by simp),
              inv.eff_created u hidc⟩
        · intro u hu
          have h1 : u ∉ s.created := fun hc => hu (List.mem_append_left _ hc)
          exact inv.eff_created u h1
        · intro u hu
          rcases List.mem_append.mp hu with h | h
          · exact inv.created_lt u h
          · simp at h
            subst h
            exact inv.pending_lt u hid
        · intro u hu
          exact inv.pending_lt u (List.mem_filter.mp hu).1
        · show (s.playTrace ++ (s.playbackQueue ++ [id])).Sublist
            (s.enqueueTrace ++ [id])
          rw [← List.append_assoc]
          exact inv.playOrder.append (List.Sublist.refl [id])
      have hstep : schedStep s (.writeDone id) =
          (if s.isPlayingAudio then
            ({ s with pendingWrites := s.pendingWrites.filter (· ≠ id),
                      files := s.files ++ [id], created := s.created ++ [id],
                      playbackQueue := s.playbackQueue ++ [id],
                      cleanupQueue := s.cleanupQueue ++ [id],
                      enqueueTrace := s.enqueueTrace ++ [id] } : SchedState)
           else playNextInQueue
            { s with pendingWrites := s.pendingWrites.filter (· ≠ id),
                     files := s.files ++ [id], created := s.created ++ [id],
                     playbackQueue := s.playbackQueue ++ [id],
                     cleanupQueue := s.cleanupQueue ++ [id],
                     enqueueTrace := s.enqueueTrace ++ [id] }) := by
        simp [schedStep, hid]
      rw [hstep]
      by_cases hp : s.isPlayingAudio
      · rw [if_pos hp]
        exact inv2
      · rw [if_neg hp]
        exact schedInv_playNext _ inv2
    · simpa [schedStep, hid] using inv
  | writeFail id =>
    by_cases hid : id ∈ s.pendingWrites
    · have hidc : id ∉ s.created := inv.pending_not_created id hid
      have hidf : id ∉ s.files := fun hf => hidc (inv.files_sub_created id hf)
      have hstep : schedStep s (.writeFail id) =
          { s with pendingWrites := s.pendingWrites.filter (· ≠ id),
                   deleteCalls := s.deleteCalls ++ [(id, true)] } := by
        simp [schedStep, hid, deleteCallIdem, hidf]
      rw [hstep]
      refine
        { filesNodup := inv.filesNodup,
          files_sub_cleanup := inv.files_sub_cleanup,
          files_sub_created := inv.files_sub_created,
          cleanup_sub_created := inv.cleanup_sub_created,
          pending_not_created := ?_, status := inv.status,
          eff_created := inv.eff_created, created_lt := inv.created_lt,
          pending_lt := ?_, callsIdem := ?_, playOrder := inv.playOrder }
      · intro u hu
        exact inv.pending_not_created u (List.mem_filter.mp hu).1
      · intro u hu
        exact inv.pending_lt u (List.mem_filter.mp hu).1
      · intro c hc
        rcases List.mem_append.mp hc with h1 | h1
        · exact inv.callsIdem c h1
        · simp at h1
          rw [h1]
    · simpa [schedStep, hid] using inv
  | finishPlay =>
    cases hact : s.activeSound with
    | none => simpa [schedStep, hact] using inv
    | some item =>
      have hstep : schedStep s .finishPlay = playNextInQueue
          { deleteCallIdem
              { s with cleanupQueue := s.cleanupQueue.filter (· ≠ item) } item with
            activeSound := none, isPlayingAudio := false } := by
        simp [schedStep, hact]
      rw [hstep]
      refine schedInv_playNext _ (schedInv_delete_active _ s item
        (s.cleanupQueue.filter (· ≠ item)) inv
        (fun v => deleteCallIdem_files_iff _ item v inv.filesNodup)
        (deleteCallIdem_nodup _ item inv.filesNodup)
        (deleteCallIdem_spec _ item).2.2.1
        (deleteCallIdem_spec _ item).2.2.2.1
        (deleteCallIdem_spec _ item).1
        (fun v => deleteCallIdem_count _ item v)
        (deleteCallIdem_spec _ item).2.2.2.2.2.2.2.2.2
        (deleteCallIdem_spec _ item).2.2.2.2.2.2.2.1
        (deleteCallIdem_spec _ item).2.1
        (deleteCallIdem_spec _ item).2.2.2.2.2.2.1
        (deleteCallIdem_spec _ item).2.2.2.2.2.2.2.2.1
        ?_ ?_)
      · intro v hvf hvne
        exact List.mem_filter.mpr ⟨inv.files_sub_cleanup v hvf, by simpa using hvne⟩
      · intro v hv
        exact inv.cleanup_sub_created v (List.mem_filter.mp hv).1
  | finishPlayUnloadFail =>
    cases hact : s.activeSound with
    | none => simpa [schedStep, hact] using inv
    | some item =>
      have hstep : schedStep s .finishPlayUnloadFail = playNextInQueue
          { deleteCallIdem s item with
            activeSound := none, isPlayingAudio := false } := by
        simp [schedStep, hact]
      rw [hstep]
      refine schedInv_playNext _ (schedInv_delete_active _ s item
        s.cleanupQueue inv
        (fun v => deleteCallIdem_files_iff _ item v inv.filesNodup)
        (deleteCallIdem_nodup _ item inv.filesNodup)
        (deleteCallIdem_spec _ item).2.2.1
        (deleteCallIdem_spec _ item).2.2.2.1
        (deleteCallIdem_spec _ item).1
        (fun v => deleteCallIdem_count _ item v)
        (deleteCallIdem_spec _ item).2.2.2.2.2.2.2.2.2
        (deleteCallIdem_spec _ item).2.2.2.2.2.2.2.1
        (deleteCallIdem_spec _ item).2.1
        (deleteCallIdem_spec _ item).2.2.2.2.2.2.1
        (deleteCallIdem_spec _ item).2.2.2.2.2.2.2.2.1
        (fun v hvf _ => inv.files_sub_cleanup v hvf)
        inv.cleanup_sub_created)
  | errorPlay =>
    cases hact : s.activeSound with
    | none => simpa [schedStep, hact] using inv
    | some item =>
      have hstep : schedStep s .errorPlay = playNextInQueue
          { deleteCallIdem s item with
            activeSound := none, isPlayingAudio := false } := by
        simp [schedStep, hact]
      rw [hstep]
      refine schedInv_playNext _ (schedInv_delete_active _ s item
        s.cleanupQueue inv
        (fun v => deleteCallIdem_files_iff _ item v inv.filesNodup)
        (deleteCallIdem_nodup _ item inv.filesNodup)
        (deleteCallIdem_spec _ item).2.2.1
        (deleteCallIdem_spec _ item).2.2.2.1
        (deleteCallIdem_spec _ item).1
        (fun v => deleteCallIdem_count _ item v)
        (deleteCallIdem_spec _ item).2.2.2.2.2.2.2.2.2
        (deleteCallIdem_spec _ item).2.2.2.2.2.2.2.1
        (deleteCallIdem_spec _ item).2.1
        (deleteCallIdem_spec _ item).2.2.2.2.2.2.1
        (deleteCallIdem_spec _ item).2.2.2.2.2.2.2.2.1
        (fun v hvf _ => inv.files_sub_cleanup v hvf)
        inv.cleanup_sub_created)
  | cleanup =>
    have hstep : schedStep s .cleanup =
        s.cleanupQueue.foldl deleteCallIdem
          { s with isPlayingAudio := false, playbackQueue := [],
                   activeSound := none, cleanupQueue := [] } := by
      simp [schedStep, cleanupPlayback]
    rw [hstep]
    obtain ⟨f1, f2, f3, f4, f5, f6, f7, f8, f9⟩ :=
      foldl_deleteCallIdem_spec s.cleanupQueue
        { s with isPlayingAudio := false, playbackQueue := [],
                 activeSound := none, cleanupQueue := [] }
    have hmem := foldl_deleteCallIdem_files_iff s.cleanupQueue
      { s with isPlayingAudio := false, playbackQueue := [],
               activeSound := none, cleanupQueue := [] } inv.filesNodup
    have hcount := foldl_deleteCallIdem_count s.cleanupQueue
      { s with isPlayingAudio := false, playbackQueue := [],
               activeSound := none, cleanupQueue := [] } inv.filesNodup
    refine
      { filesNodup := ?_, files_sub_cleanup := ?_, files_sub_created := ?_,
        cleanup_sub_created := ?_, pending_not_created := ?_, status := ?_,
        eff_created := ?_, created_lt := ?_, pending_lt := ?_,
        callsIdem := ?_, playOrder := ?_ }
    · exact foldl_deleteCallIdem_nodup s.cleanupQueue _ inv.filesNodup
    · intro u hu
      obtain ⟨huf, hnl⟩ := (hmem u).mp hu
      exact absurd (inv.files_sub_cleanup u huf) hnl
    · intro u hu
      rw [f4]
      exact inv.files_sub_created u ((hmem u).mp hu).1
    · intro u hu
      rw [f3] at hu
      simp at hu
    · rw [f1, f4]
      exact inv.pending_not_created
    · intro u hu
      rw [f4] at hu
      rcases inv.status u hu with ⟨huf, hcnt⟩ | ⟨hnf, hcnt⟩
      · right
        have hul : u ∈ s.cleanupQueue := inv.files_sub_cleanup u huf
        refine ⟨fun hm => absurd hul ((hmem u).mp hm).2, ?_⟩
        rw [hcount u, hcnt, if_pos ⟨huf, hul⟩]
      · right
        refine ⟨fun hm => hnf ((hmem u).mp hm).1, ?_⟩
        rw [hcount u, hcnt, if_neg (fun hcon => hnf hcon.1)]
    · intro u hu
      rw [f4] at hu
      have hind : ¬(u ∈ s.files ∧ u ∈ s.cleanupQueue) := by
        rintro ⟨hif, -⟩
        exact hu (inv.files_sub_created u hif)
      rw [hcount u, inv.eff_created u hu, if_neg hind]
    · rw [f4, f9]
      exact inv.created_lt
    · rw [f1, f9]
      exact inv.pending_lt
    · exact foldl_deleteCallIdem_calls s.cleanupQueue _ inv.callsIdem
    · rw [f8, f2, f7]
      show (s.playTrace ++ []).Sublist s.enqueueTrace
      rw [List.append_nil]
      exact (List.sublist_append_left _ _).trans inv.playOrder

end GeminiLive

namespace GeminiLive

/-- The initial scheduler state satisfies the invariant. -/
theorem schedInv_init : SchedInv ({} : SchedState) := by
  constructor <;> simp

/-- Every schedule keeps the invariant. -/
theorem foldl_schedInv (evs : List SchedEvent) :
    ∀ s : SchedState, SchedInv s → SchedInv (evs.foldl schedStep s) := by
  induction evs with
  | nil => intro s inv; simpa using inv
  | cons e evs ih =>
    intro s inv
    simp only [List.foldl_cons]
    exact ih _ (schedInv_step s e inv)

/-- Every reachable scheduler state satisfies the invariant. -/
theorem schedInv_run (evs : List SchedEvent) : SchedInv (schedRun evs) :=
  foldl_schedInv evs {} schedInv_init

/-! ## Claims C5 and C6 -/

/-- C5 counterexample: chunk 0 is received (arrives) before chunk 1, but
chunk 1's transient write completes first.  Chunk 1 is then enqueued and
played first: the play order is [1, 0], so the received-first chunk does
*not* play first — playback order follows write-completion order, not
receive order. -/
theorem c5_receive_order_counterexample :
    (schedRun [.arrive, .arrive, .writeDone 1, .writeDone 0,
        .finishPlay, .finishPlay]).playTrace = [1, 0] ∧
    (schedRun [.arrive, .arrive, .writeDone 1, .writeDone 0,
        .finishPlay, .finishPlay]).enqueueTrace = [1, 0] ∧
    (schedRun [.arrive, .arrive, .writeDone 1, .writeDone 0,
        .finishPlay, .finishPlay]).playTrace.indexOf 1 <
      (schedRun [.arrive, .arrive, .writeDone 1, .writeDone 0,
        .finishPlay, .finishPlay]).playTrace.indexOf 0 := by
  refine ⟨rfl, rfl, ?_⟩
  decide

/-- C5 (amended): playback order is determined by queue position, where a
chunk's queue position is fixed by the order its transient write completed
(its enqueue), not by the order it was received: the sequence of chunks
that begin playback is always an order-preserving subsequence of the
enqueue sequence. -/
theorem c5_play_follows_enqueue_order (evs : List SchedEvent) :
    (schedRun evs).playTrace.Sublist (schedRun evs).enqueueTrace :=
  (List.sublist_append_left _ _).trans (schedInv_run evs).playOrder

/-- C6: at the end of any schedule that finishes with a
`cleanupPlayback` — reached on connection close, interruption, or
teardown — no transient file remains, every delete call ever issued was
idempotent (so no double delete is observable as an error to the caller),
and every transient file that was created was effectively deleted exactly
once. -/
theorem c6_transient_deleted_exactly_once (evs : List SchedEvent) :
    (schedRun (evs ++ [SchedEvent.cleanup])).files = [] ∧
    (∀ c ∈ (schedRun (evs ++ [SchedEvent.cleanup])).deleteCalls, c.2 = true) ∧
    ∀ u ∈ (schedRun (evs ++ [SchedEvent.cleanup])).created,
      (schedRun (evs ++ [SchedEvent.cleanup])).effDeletes.count u = 1 ∧
      u ∉ (schedRun (evs ++ [SchedEvent.cleanup])).files := by
  have hrun : schedRun (evs ++ [SchedEvent.cleanup]) =
      schedStep (schedRun evs) .cleanup := by
    unfold schedRun
    rw [List.foldl_append]
    rfl
  have inv2 : SchedInv (schedStep (schedRun evs) .cleanup) :=
    schedInv_step _ _ (schedInv_run evs)
  have hstep : schedStep (schedRun evs) .cleanup =
      (schedRun evs).cleanupQueue.foldl deleteCallIdem
        { schedRun evs with isPlayingAudio := false, playbackQueue := [],
                            activeSound := none, cleanupQueue := [] } := by
    simp [schedStep, cleanupPlayback]
  have hcq : (schedStep (schedRun evs) .cleanup).cleanupQueue = [] := by
    rw [hstep]
    exact (foldl_deleteCallIdem_spec (schedRun evs).cleanupQueue _).2.2.1
  have hfiles : (schedStep (schedRun evs) .cleanup).files = [] := by
    rw [List.eq_nil_iff_forall_not_mem]
    intro u hu
    have := inv2.files_sub_cleanup u hu
    rw [hcq] at this
    simp at this
  rw [hrun]
  refine ⟨hfiles, inv2.callsIdem, fun u hu => ?_⟩
  rcases inv2.status u hu with ⟨huf, -⟩ | ⟨hnf, hcnt⟩
  · rw [hfiles] at huf
    simp at huf
  · exact ⟨hcnt, hnf⟩

/-- Witness for C6 on a schedule exercising the error path (chunk 0 fails
during playback and is deleted there, then cleanup re-deletes it
idempotently) and the flush path (chunk 1 is still queued at cleanup). -/
theorem c6_transient_deleted_exactly_once_witness :
    (schedRun ([.arrive, .arrive, .writeDone 0, .writeDone 1, .errorPlay] ++
        [SchedEvent.cleanup])).files = [] ∧
    ((0, true) ∈ (schedRun ([.arrive, .arrive, .writeDone 0, .writeDone 1,
        .errorPlay] ++ [SchedEvent.cleanup])).deleteCalls ∧
      (0, true) ∈ (schedRun ([.arrive, .arrive, .writeDone 0, .writeDone 1,
        .errorPlay] ++ [SchedEvent.cleanup])).deleteCalls) ∧
    0 ∈ (schedRun ([.arrive, .arrive, .writeDone 0, .writeDone 1,
        .errorPlay] ++ [SchedEvent.cleanup])).created ∧
    (schedRun ([.arrive, .arrive, .writeDone 0, .writeDone 1, .errorPlay] ++
        [SchedEvent.cleanup])).effDeletes.count 0 = 1 ∧
    (schedRun ([.arrive, .arrive, .writeDone 0, .writeDone 1, .errorPlay] ++
        [SchedEvent.cleanup])).effDeletes.count 1 = 1 := by
  have h := c6_transient_deleted_exactly_once
    [.arrive, .arrive, .writeDone 0, .writeDone 1, .errorPlay]
  refine ⟨h.1, ⟨by decide, by decide⟩, by decide, ?_, ?_⟩
  · exact (h.2.2 0 (by decide)).1
  · exact (h.2.2 1 (by decide)).1

end GeminiLive
